import Mathlib

/-!
Verification development for the dyn-wall-rs time-interval scheduling core
(`src/lib.rs`): the breakpoint-list validator `error_checking`, the
current-time selection scan `wallpaper_current_time`, the equal-interval
generation in `wallpaper_listener` / `listener_setup`, and the user-program
command builder `prog_handle_loader`.

Times are embedded as natural numbers of minutes since midnight.  The
`time_track::Time` type itself is not under `src/`; it is modelled from the
spec (Section 4.1): an integer minute count, compared and added exactly on
that count, with `MIDNIGHT = 0` and `END_OF_DAY = 1440`.
-/

deriving instance DecidableEq for Except

/-- Modelled from the spec: `time_track::Time` (module not in `src/`) is an
integer number of minutes since midnight; ordering, equality and addition act
on the raw minute count, unclamped. -/
abbrev Time := Nat

/-- `MIDNIGHT`: `Time::default()` in the source, 0 minutes. -/
def midnight : Nat := 0

/-- `END_OF_DAY`: `Time::new(24 * 60)` in the source (`full_time`). -/
def full_time : Nat := 24 * 60

/-- `errors::ConfigFileErrors` of the source. -/
inductive ConfigFileErrors where
  | Empty
  | OutOfOrder
  | FileTimeMismatch
  deriving DecidableEq, Repr

/-- `errors::Errors` of the source (payloads kept where the selection and
validation paths construct them). -/
inductive Errors where
  | ConfigFileError (e : ConfigFileErrors)
  | CountCompatError (n : Nat)
  | DirNonExistantError (dir : String)
  | FilePathError
  | ProgramRunError (name : String)
  | NoFilesFoundError (dir : String)
  deriving DecidableEq, Repr

/-- The mutable state of the `error_checking` loop in `src/lib.rs`
(lines 244-247): the primary run's current maximum `curr_range`, the
secondary (post-midnight) run's seed `start_range_other` and current maximum
`curr_range_other`, and the flag `other_inited` recording whether the
secondary run has been opened. -/
structure ECState where
  curr_range : Nat
  start_range_other : Nat
  curr_range_other : Nat
  other_inited : Bool
  deriving DecidableEq, Repr

/-- One iteration of the `for time in times_iter_err` loop of
`error_checking` (`src/lib.rs` lines 248-265), with the same if/else chain:
strictly-above-start values extend the primary run when strictly above
`curr_range`, error with `OutOfOrder` when strictly below it, and are a no-op
when equal to it; a value equal to `start_range` always falls through as a
no-op; the first value below `start_range` opens the secondary run and sets
`curr_range` to `full_time`; later values below `start_range` must be
strictly above both `start_range_other` and `curr_range_other`. -/
def error_checking_step (start_range : Nat) (s : ECState) (time : Nat) :
    Except ConfigFileErrors ECState :=
  if time > start_range ∧ time > s.curr_range then
    .ok { s with curr_range := time }
  else if time > start_range ∧ time < s.curr_range then
    .error .OutOfOrder
  else if time < start_range then
    if ¬ s.other_inited then
      .ok { curr_range := full_time, start_range_other := time,
            curr_range_other := time, other_inited := true }
    else if time > s.start_range_other ∧ time > s.curr_range_other then
      .ok { s with curr_range_other := time }
    else
      .error .OutOfOrder
  else
    .ok s

/-- The `error_checking` loop over the whole `times` slice (the source's
iterator `times_iter_err` starts at the first element; that element is a
no-op for `error_checking_step` since it equals `start_range`). -/
def error_checking_loop (start_range : Nat) :
    ECState → List Nat → Except ConfigFileErrors ECState
  | s, [] => .ok s
  | s, t :: ts =>
    match error_checking_step start_range s t with
    | .error e => .error e
    | .ok s' => error_checking_loop start_range s' ts

/-- Outcome of running an embedded source function: a normal value, a typed
error (the source's `Err` path), or a process abort (an `unwrap` or
division/remainder-by-zero panic). -/
inductive RunOutcome (α : Type) where
  | ok (a : α)
  | err (e : Errors)
  | panic
  deriving DecidableEq, Repr

/-- `error_checking` of `src/lib.rs` (lines 236-276): reject an empty
sequence with `Empty`; run the two-run ordering loop; reject a missing
`loop_time` with `Empty`; then evaluate `1440 % dir_count != 0 ||
dir_count == 0` left to right, so for `dir_count = 0` the remainder-by-zero
panics before the `dir_count == 0` arm is reached (that arm is unreachable
in Rust, which is why `CountCompatError 0` is never returned); for a
non-zero count that does not divide 1440 reject with `CountCompatError`;
otherwise return `loop_time`.  Process spawning and I/O do not occur in
this function. -/
def error_checking (times : List Nat) (loop_time : Option Nat)
    (dir_count : Nat) : RunOutcome Nat :=
  match times.head? with
  | none => .err (.ConfigFileError .Empty)
  | some start_range =>
    let s0 : ECState :=
      { curr_range := start_range, start_range_other := start_range,
        curr_range_other := start_range, other_inited := false }
    match error_checking_loop start_range s0 times with
    | .error e => .err (.ConfigFileError e)
    | .ok _ =>
      match loop_time with
      | none => .err (.ConfigFileError .Empty)
      | some t =>
        if dir_count = 0 then
          .panic
        else if 1440 % dir_count ≠ 0 then
          .err (.CountCompatError dir_count)
        else
          .ok t

/-- A directory-walk entry as the selection scan sees it: `Except.error` is
an inaccessible entry (a walkdir error), `Except.ok none` an entry whose path
cannot be rendered as text (`to_str()` returns `None`), and
`Except.ok (some s)` an entry with textual path `s`. -/
abbrev DirEntry := Except Unit (Option String)

/-- An external command under construction (`std::process::Command`): the
executable name and the argument list.  Spawning is outside the core; only
the built data is tracked. -/
structure Command where
  program : String
  args : List String
  deriving DecidableEq, Repr

/-- Tokenizer for `split_whitespace`, over the character list with an
accumulator holding the current token reversed. -/
def split_whitespace_aux : List Char → List Char → List String
  | [], acc => if acc = [] then [] else [String.mk acc.reverse]
  | c :: cs, acc =>
    if c.isWhitespace then
      if acc = [] then split_whitespace_aux cs []
      else String.mk acc.reverse :: split_whitespace_aux cs []
    else split_whitespace_aux cs (c :: acc)

/-- Rust's `str::split_whitespace`: split on whitespace, discarding empty
tokens. -/
def split_whitespace (s : String) : List String :=
  split_whitespace_aux s.data []

/-- `prog_handle_loader` of `src/lib.rs` (lines 125-134): when a user program
string is present, rebuild `prog_handle` as the first whitespace token with
the remaining tokens as arguments and `filepath_set` appended last; the
`prog_split.next().unwrap()` aborts when the string has no token.  When no
program string is present, `prog_handle` is left unchanged. -/
def prog_handle_loader (filepath_set : String) (program : Option String)
    (prog_handle : Command) : RunOutcome Command :=
  match program with
  | none => .ok prog_handle
  | some prog_str =>
    match split_whitespace prog_str with
    | [] => .panic
    | w :: ws => .ok { program := w, args := ws ++ [filepath_set] }

/-- The `for file in dir_iter` loop of `wallpaper_current_time`
(`src/lib.rs` lines 68-95), one constructor argument per mutable of the
source: the remaining breakpoint iterator `times_rest`, the sliding window
`loop_time` / `next_time`, the remaining files, and the accumulators
`filepath_set` (built by `push_str` on every match) and `last_image`.  Per
iteration: reset `loop_time` to `midnight` when it exceeds `next_time`; fail
with `FileTimeMismatch` when both bounds are `full_time`; fail with
`FilePathError` on an inaccessible entry; abort on a non-renderable path
(the `to_str().unwrap()` of line 80); append the path to `filepath_set` and
rebuild `prog_handle` when `loop_time ≤ curr_time < next_time`; then slide
the window. -/
def wallpaper_loop (curr_time : Nat) (program : Option String) :
    List Nat → Nat → Nat → List DirEntry → String → String → Command →
    RunOutcome (String × String × Command)
  | _, _, _, [], filepath_set, last_image, prog_handle =>
    .ok (filepath_set, last_image, prog_handle)
  | times_rest, loop_time, next_time, file :: files, filepath_set,
      _last_image, prog_handle =>
    let loop_time2 := if loop_time > next_time then midnight else loop_time
    if loop_time2 = full_time ∧ next_time = full_time then
      .err (.ConfigFileError .FileTimeMismatch)
    else
      match file with
      | .error _ => .err .FilePathError
      | .ok none => .panic
      | .ok (some s) =>
        if curr_time ≥ loop_time2 ∧ curr_time < next_time then
          match prog_handle_loader (filepath_set ++ s) program prog_handle with
          | .panic => .panic
          | .err e => .err e
          | .ok prog_handle2 =>
            wallpaper_loop curr_time program times_rest.tail next_time
              (times_rest.headD full_time) files (filepath_set ++ s) s
              prog_handle2
        else
          wallpaper_loop curr_time program times_rest.tail next_time
            (times_rest.headD full_time) files filepath_set s prog_handle

/-- `wallpaper_current_time` of `src/lib.rs` (lines 40-123) as a pure
function: the directory walk is the given entry list whose first entry is
the walk root, the current wall-clock time is the parameter `curr_time`
(the source reads `Local::now()`), and spawning `feh` and the user program
is outside the core, so the function returns the final `filepath_set`
string that the source prints and hands to both.  The initial
`dir_iter.next().unwrap()` aborts on an empty walk; an error on the first
entry is `DirNonExistantError`; when no window matched, the fallback hands
`last_image` to `feh` and the user program and returns it. -/
def wallpaper_current_time (curr_time : Nat) (dir : String)
    (entries : List DirEntry) (dir_count : Nat) (program : Option String)
    (times : List Nat) : RunOutcome String :=
  match entries with
  | [] => .panic
  | e0 :: files =>
    match e0 with
    | .error _ => .err (.DirNonExistantError dir)
    | .ok _ =>
      let next_time := times.getD 1 full_time
      match error_checking times times.head? dir_count with
      | .panic => .panic
      | .err e => .err e
      | .ok loop_time =>
        match wallpaper_loop curr_time program (times.drop 2) loop_time
            next_time files "" "" { program := "", args := [] } with
        | .panic => .panic
        | .err e => .err e
        | .ok (filepath_set, last_image, prog_handle) =>
          if filepath_set = "" then
            match prog_handle_loader last_image program prog_handle with
            | .panic => .panic
            | .err e => .err e
            | .ok _ => .ok last_image
          else
            .ok filepath_set

/-- Round-to-nearest, ties-to-even of the rational `a * 2 ^ t / n`, used as
the mantissa of an IEEE binary32 result. -/
def rndMant (a n t : Nat) : Nat :=
  let num := a * 2 ^ t
  let q := num / n
  let r := num % n
  if 2 * r > n then q + 1
  else if 2 * r < n then q
  else if q % 2 = 0 then q else q + 1

/-- Structural (fuel-based) floor of the base-2 logarithm, so that it
reduces inside the kernel; agrees with `Nat.log2` since at most
`log2 n ≤ n` halving steps are ever taken. -/
def natLog2Aux : Nat → Nat → Nat
  | 0, _ => 0
  | fuel + 1, n => if n ≥ 2 then natLog2Aux fuel (n / 2) + 1 else 0

/-- Floor base-2 logarithm (0 at 0), kernel-reducible. -/
def natLog2 (n : Nat) : Nat := natLog2Aux n n

/-- IEEE binary32 division `a / n` on positive naturals, as a normalized
dyadic rational: a mantissa in `[2^23, 2^24)` and a power-of-two exponent.
Intended for the source's `24.0 / dir_count as f32`, whose operands and
results stay well inside the normal range. -/
def f32div (a n : Nat) : Nat × Int :=
  let t0 := 23 + natLog2 n - natLog2 a
  let m0 := rndMant a n t0
  if m0 < 2 ^ 23 then (rndMant a n (t0 + 1), -((t0 : Int) + 1))
  else if 2 ^ 24 ≤ m0 then (rndMant a n (t0 - 1), -((t0 : Int) - 1))
  else (m0, -(t0 : Int))

/-- IEEE binary32 multiplication of the dyadic `m * 2 ^ e` by the exact
constant 60, rounding the product's mantissa back to 24 bits,
ties-to-even. -/
def f32mul60 (m : Nat) (e : Int) : Nat × Int :=
  let v := m * 60
  let l := natLog2 v
  if l ≤ 23 then (v, e)
  else
    let s := l - 23
    let q := v / 2 ^ s
    let r := v % 2 ^ s
    let h := 2 ^ (s - 1)
    let q2 :=
      if r > h then q + 1
      else if r < h then q
      else if q % 2 = 0 then q else q + 1
    if q2 = 2 ^ 24 then (2 ^ 23, e + (s : Int) + 1) else (q2, e + (s : Int))

/-- Rust's `as u32` on a positive finite float value `m * 2 ^ e`: truncation
toward zero. -/
def dyadicTruncToNat (m : Nat) (e : Int) : Nat :=
  if 0 ≤ e then m * 2 ^ e.toNat else m / 2 ^ (-e).toNat

/-- The step computation of `listener_setup` (`src/lib.rs` line 189):
`Time::new(((24.0 / dir_count as f32) * 60.0) as u32)`, with the f32
arithmetic modelled exactly as round-to-nearest-even dyadic rationals.  For
`dir_count = 0` the source divides by zero giving `inf`, and Rust's float to
integer cast saturates at `u32::MAX`. -/
def step_time (dir_count : Nat) : Nat :=
  if dir_count = 0 then 4294967295
  else
    let x := f32div 24 dir_count
    let y := f32mul60 x.1 x.2
    dyadicTruncToNat y.1 y.2

/-- `listener_setup` of `src/lib.rs` (lines 184-195), with the directory
walk count passed in (the walk itself is an external collaborator): returns
the count, the step (or `NoFilesFoundError` for an empty directory), the
initial `loop_time = Time::default()` and the empty times vector. -/
def listener_setup (dir_count : Nat) (dir : String) :
    Nat × Except Errors Nat × Nat × List Nat :=
  (dir_count,
   if dir_count = 0 then .error (.NoFilesFoundError dir)
   else .ok (step_time dir_count),
   midnight, [])

/-- The `for _ in 1..=dir_count` push loop of `wallpaper_listener`
(`src/lib.rs` lines 149-152): push `loop_time`, then advance it by the
step. -/
def listener_times_loop : Nat → Nat → Nat → List Nat
  | 0, _, _ => []
  | k + 1, loop_time, step =>
    loop_time :: listener_times_loop k (loop_time + step) step

/-- The breakpoint sequence `wallpaper_listener` (`src/lib.rs` lines
147-155) ends up using: the user-supplied vector when one was passed,
otherwise `dir_count` auto-generated equally spaced times starting at
midnight with the `listener_setup` step. -/
def wallpaper_listener_times (dir_count : Nat)
    (times_arg : Option (List Nat)) : List Nat :=
  match times_arg with
  | none => listener_times_loop dir_count midnight (step_time dir_count)
  | some t => t

/-- The two-run validation rule exactly as the spec's claim states it: a
value `≥ start` is accepted iff it is `≥` the primary run's current maximum
(which it then becomes); the first value `< start` opens the secondary run
seeded at that value; each later value `< start` is accepted iff it is `≥`
the secondary run's current maximum (which it then becomes). -/
def spec_two_run_rule (start : Nat) : Nat → Option Nat → List Nat → Bool
  | _, _, [] => true
  | pmax, sec, v :: vs =>
    if v ≥ start then
      if v ≥ pmax then spec_two_run_rule start v sec vs else false
    else
      match sec with
      | none => spec_two_run_rule start pmax (some v) vs
      | some m =>
        if v ≥ m then spec_two_run_rule start pmax (some v) vs else false

/-- The two-run rule the `error_checking` loop actually implements: a value
strictly above `start` is accepted iff it is `≥` the primary maximum
(strictly above updates it); a value equal to `start` is always accepted and
changes nothing; the first value below `start` opens the secondary run and
raises the primary maximum to `END_OF_DAY`; each later value below `start`
is accepted iff *strictly* above the secondary maximum. -/
def code_two_run_rule (start : Nat) : Nat → Option Nat → List Nat → Bool
  | _, _, [] => true
  | pmax, sec, v :: vs =>
    if v > start then
      if v > pmax then code_two_run_rule start v sec vs
      else if v < pmax then false
      else code_two_run_rule start pmax sec vs
    else if v = start then code_two_run_rule start pmax sec vs
    else
      match sec with
      | none => code_two_run_rule start full_time (some v) vs
      | some m =>
        if v > m then code_two_run_rule start pmax (some v) vs else false

/-- Whether an `Except` computation succeeded. -/
def exceptOk {ε α : Type} : Except ε α → Bool
  | .ok _ => true
  | .error _ => false

/-- Correspondence between the concrete `error_checking` loop state and the
abstract rule state (primary maximum, optional secondary maximum). -/
def ECRel (s : ECState) (pmax : Nat) (sec : Option Nat) : Prop :=
  s.curr_range = pmax ∧
    ((sec = none ∧ s.other_inited = false) ∨
      (∃ m, sec = some m ∧ s.other_inited = true ∧
        s.curr_range_other = m ∧ s.start_range_other ≤ m))

/-- Binary-splitting exhaustive check that `step_time` agrees with exact
division on every divisor of 1440 in the window `[lo, lo + len)`; the fuel
argument keeps the recursion structural (and the kernel's evaluation stack
logarithmic). -/
def checkStepRange : Nat → Nat → Nat → Bool
  | _, _, 0 => true
  | _, lo, 1 => (1440 % lo != 0) || (step_time lo == 1440 / lo)
  | 0, _, _ => false
  | fuel + 1, lo, len =>
    checkStepRange fuel lo (len / 2) &&
      checkStepRange fuel (lo + len / 2) (len - len / 2)

/-- The breakpoint value the scan's sliding window sees at position `k`:
the `k`-th breakpoint, or `END_OF_DAY` once the iterator is exhausted
(`unwrap_or(&full_time)`). -/
def wseq (times : List Nat) (k : Nat) : Nat := times.getD k full_time

/-- The lower bound of scan window `k` after the midnight reset: when the
raw start exceeds the end, the start is replaced by `MIDNIGHT` for the
comparison. -/
def window_start (times : List Nat) (k : Nat) : Nat :=
  if wseq times k > wseq times (k + 1) then midnight else wseq times k

/-- `now` lies in the scan's half-open window number `k`. -/
def window_matches (now : Nat) (times : List Nat) (k : Nat) : Prop :=
  window_start times k ≤ now ∧ now < wseq times (k + 1)

instance (now : Nat) (times : List Nat) (k : Nat) :
    Decidable (window_matches now times k) := by
  unfold window_matches
  infer_instance

/-- Both bounds of scan window `k` are the `END_OF_DAY` sentinel — the
condition under which the scan fails with `FileTimeMismatch`. -/
def sentinel_pair (times : List Nat) (k : Nat) : Prop :=
  wseq times k = full_time ∧ wseq times (k + 1) = full_time

instance (times : List Nat) (k : Nat) : Decidable (sentinel_pair times k) := by
  unfold sentinel_pair
  infer_instance

/-- The concatenation (`push_str` accumulation) of the paths of every
matching window from position `k` on, one path per file. -/
def match_concat_from (now : Nat) (times : List Nat) :
    Nat → List String → String
  | _, [] => ""
  | k, p :: ps =>
    (if window_matches now times k then p else "") ++
      match_concat_from now times (k + 1) ps

/-- Directory entries for a list of accessible files with renderable
paths. -/
def good_entries (ps : List String) : List DirEntry :=
  ps.map (fun s => .ok (some s))

/-- The user-program option either is absent or holds at least one
whitespace token, so `prog_handle_loader` never aborts. -/
def prog_ok (program : Option String) : Prop :=
  ∀ p, program = some p → split_whitespace p ≠ []

/-- The tail of `wallpaper_current_time` after the scan loop: the fallback
to `last_image` when no window matched (`filepath_set.is_empty()`), with the
user-program rebuild on the fallback path. -/
def finish_selection (program : Option String) :
    RunOutcome (String × String × Command) → RunOutcome String
  | .panic => .panic
  | .err e => .err e
  | .ok (fps, last, ph) =>
    if fps = "" then
      (match prog_handle_loader last program ph with
       | .panic => .panic
       | .err e => .err e
       | .ok _ => .ok last)
    else .ok fps

theorem checkStepRange_sound : ∀ (fuel lo len : Nat),
    checkStepRange fuel lo len = true →
    ∀ n, lo ≤ n → n < lo + len → 1440 % n = 0 → step_time n = 1440 / n := by
  intro fuel
  induction fuel with
  | zero =>
    intro lo len h n h1 h2 h3
    match len, h, h2 with
    | 0, _, h2 => omega
    | 1, h, h2 =>
      have hn : n = lo := by omega
      subst hn
      simp only [checkStepRange, Bool.or_eq_true, bne_iff_ne, ne_eq,
        beq_iff_eq] at h
      rcases h with h | h
      · exact absurd h3 h
      · exact h
    | len + 2, h, _ => simp [checkStepRange] at h
  | succ fuel ih =>
    intro lo len h n h1 h2 h3
    match len, h, h2 with
    | 0, _, h2 => omega
    | 1, h, h2 =>
      have hn : n = lo := by omega
      subst hn
      simp only [checkStepRange, Bool.or_eq_true, bne_iff_ne, ne_eq,
        beq_iff_eq] at h
      rcases h with h | h
      · exact absurd h3 h
      · exact h
    | len + 2, h, h2 =>
      rw [show checkStepRange (fuel + 1) lo (len + 2) =
          (checkStepRange fuel lo ((len + 2) / 2) &&
            checkStepRange fuel (lo + (len + 2) / 2)
              ((len + 2) - (len + 2) / 2)) from rfl,
        Bool.and_eq_true] at h
      by_cases hcase : n < lo + (len + 2) / 2
      · exact ih lo ((len + 2) / 2) h.1 n h1 hcase h3
      · exact ih (lo + (len + 2) / 2) ((len + 2) - (len + 2) / 2) h.2 n
          (by omega) (by omega) h3

/-- For every image count that divides 1440, the `f32` step of
`listener_setup` computes exactly `1440 / n` minutes (established by
exhaustive kernel evaluation of the dyadic rounding model over
`n < 1441`). -/
theorem step_time_eq_div (n : Nat) (h0 : 0 < n) (hd : 1440 % n = 0) :
    step_time n = 1440 / n := by
  have hle : n ≤ 1440 := Nat.le_of_dvd (by norm_num) (Nat.dvd_of_mod_eq_zero hd)
  exact checkStepRange_sound 11 0 1441 (by decide) n (Nat.zero_le n)
    (by omega) hd

theorem error_checking_step_error (start : Nat) (s : ECState) (v : Nat)
    (e : ConfigFileErrors) (h : error_checking_step start s v = .error e) :
    e = .OutOfOrder := by
  unfold error_checking_step at h
  split_ifs at h <;> simp_all

theorem error_checking_loop_error (start : Nat) :
    ∀ (vs : List Nat) (s : ECState) (e : ConfigFileErrors),
      error_checking_loop start s vs = .error e → e = .OutOfOrder := by
  intro vs
  induction vs with
  | nil => intro s e h; simp [error_checking_loop] at h
  | cons v vs ih =>
    intro s e h
    unfold error_checking_loop at h
    cases hs : error_checking_step start s v with
    | error e' =>
      rw [hs] at h
      cases h
      exact error_checking_step_error start s v e hs
    | ok s' =>
      rw [hs] at h
      exact ih s' e h

theorem error_checking_loop_rule (start : Nat) :
    ∀ (vs : List Nat) (s : ECState) (pmax : Nat) (sec : Option Nat),
      ECRel s pmax sec →
      exceptOk (error_checking_loop start s vs) =
        code_two_run_rule start pmax sec vs := by
  intro vs
  induction vs with
  | nil =>
    intro s pmax sec _
    simp [error_checking_loop, code_two_run_rule, exceptOk]
  | cons v vs ih =>
    intro s pmax sec hrel
    obtain ⟨hcurr, hsec⟩ := hrel
    rcases Nat.lt_trichotomy v start with hvs | hvs | hvs
    · -- v < start: secondary-run branch
      rcases hsec with ⟨hne, hini⟩ | ⟨m, hm, hini, hcurrO, hstartO⟩
      · -- secondary not yet opened
        subst hne
        have hstep : error_checking_step start s v =
            .ok { curr_range := full_time, start_range_other := v,
                  curr_range_other := v, other_inited := true } := by
          unfold error_checking_step
          rw [if_neg (show ¬ (v > start ∧ v > s.curr_range) by omega),
            if_neg (show ¬ (v > start ∧ v < s.curr_range) by omega),
            if_pos hvs, if_pos (show ¬ s.other_inited = true by simp [hini])]
        have hloop : error_checking_loop start s (v :: vs) =
            error_checking_loop start
              { curr_range := full_time, start_range_other := v,
                curr_range_other := v, other_inited := true } vs := by
          simp only [error_checking_loop]
          rw [hstep]
        have hrule : code_two_run_rule start pmax none (v :: vs) =
            code_two_run_rule start full_time (some v) vs := by
          simp only [code_two_run_rule]
          rw [if_neg (show ¬ v > start by omega),
            if_neg (show ¬ v = start by omega)]
        rw [hloop, hrule]
        exact ih _ full_time (some v)
          ⟨rfl, Or.inr ⟨v, rfl, rfl, rfl, le_refl v⟩⟩
      · -- secondary already opened, with maximum m
        subst hm
        by_cases hvm : v > m
        · have hstep : error_checking_step start s v =
              .ok { s with curr_range_other := v } := by
            unfold error_checking_step
            rw [if_neg (show ¬ (v > start ∧ v > s.curr_range) by omega),
              if_neg (show ¬ (v > start ∧ v < s.curr_range) by omega),
              if_pos hvs, if_neg (show ¬ ¬ s.other_inited = true by simp [hini]),
              if_pos (show v > s.start_range_other ∧ v > s.curr_range_other by
                omega)]
          have hloop : error_checking_loop start s (v :: vs) =
              error_checking_loop start { s with curr_range_other := v } vs := by
            simp only [error_checking_loop]
            rw [hstep]
          have hrule : code_two_run_rule start pmax (some m) (v :: vs) =
              code_two_run_rule start pmax (some v) vs := by
            simp only [code_two_run_rule]
            rw [if_neg (show ¬ v > start by omega),
              if_neg (show ¬ v = start by omega)]
            simp only [if_pos hvm]
          rw [hloop, hrule]
          exact ih { s with curr_range_other := v } pmax (some v)
            ⟨hcurr, Or.inr ⟨v, rfl, hini, rfl, by
              show s.start_range_other ≤ v
              omega⟩⟩
        · have hstep : error_checking_step start s v =
              .error .OutOfOrder := by
            unfold error_checking_step
            rw [if_neg (show ¬ (v > start ∧ v > s.curr_range) by omega),
              if_neg (show ¬ (v > start ∧ v < s.curr_range) by omega),
              if_pos hvs, if_neg (show ¬ ¬ s.other_inited = true by simp [hini]),
              if_neg (show ¬ (v > s.start_range_other ∧ v > s.curr_range_other)
                by omega)]
          have hloop : error_checking_loop start s (v :: vs) =
              .error .OutOfOrder := by
            simp only [error_checking_loop]
            rw [hstep]
          have hrule : code_two_run_rule start pmax (some m) (v :: vs) =
              false := by
            simp only [code_two_run_rule]
            rw [if_neg (show ¬ v > start by omega),
              if_neg (show ¬ v = start by omega)]
            simp only [if_neg hvm]
          rw [hloop, hrule]
          rfl
    · -- v = start: always a no-op
      subst hvs
      have hstep : error_checking_step v s v = .ok s := by
        unfold error_checking_step
        rw [if_neg (show ¬ (v > v ∧ v > s.curr_range) by omega),
          if_neg (show ¬ (v > v ∧ v < s.curr_range) by omega),
          if_neg (show ¬ v < v by omega)]
      have hloop : error_checking_loop v s (v :: vs) =
          error_checking_loop v s vs := by
        simp only [error_checking_loop]
        rw [hstep]
      have hrule : code_two_run_rule v pmax sec (v :: vs) =
          code_two_run_rule v pmax sec vs := by
        simp only [code_two_run_rule]
        rw [if_neg (show ¬ v > v by omega)]
        simp
      rw [hloop, hrule]
      exact ih s pmax sec ⟨hcurr, hsec⟩
    · -- v > start: primary-run branch
      rcases Nat.lt_trichotomy v s.curr_range with hvc | hvc | hvc
      · have hstep : error_checking_step start s v = .error .OutOfOrder := by
          unfold error_checking_step
          rw [if_neg (show ¬ (v > start ∧ v > s.curr_range) by omega),
            if_pos (show v > start ∧ v < s.curr_range from ⟨hvs, hvc⟩)]
        have hloop : error_checking_loop start s (v :: vs) =
            .error .OutOfOrder := by
          simp only [error_checking_loop]
          rw [hstep]
        have hrule : code_two_run_rule start pmax sec (v :: vs) = false := by
          simp only [code_two_run_rule]
          rw [if_pos (show v > start from hvs),
            if_neg (show ¬ v > pmax by omega),
            if_pos (show v < pmax by omega)]
        rw [hloop, hrule]
        rfl
      · have hstep : error_checking_step start s v = .ok s := by
          unfold error_checking_step
          rw [if_neg (show ¬ (v > start ∧ v > s.curr_range) by omega),
            if_neg (show ¬ (v > start ∧ v < s.curr_range) by omega),
            if_neg (show ¬ v < start by omega)]
        have hloop : error_checking_loop start s (v :: vs) =
            error_checking_loop start s vs := by
          simp only [error_checking_loop]
          rw [hstep]
        have hrule : code_two_run_rule start pmax sec (v :: vs) =
            code_two_run_rule start pmax sec vs := by
          simp only [code_two_run_rule]
          rw [if_pos (show v > start from hvs),
            if_neg (show ¬ v > pmax by omega),
            if_neg (show ¬ v < pmax by omega)]
        rw [hloop, hrule]
        exact ih s pmax sec ⟨hcurr, hsec⟩
      · have hstep : error_checking_step start s v =
            .ok { s with curr_range := v } := by
          unfold error_checking_step
          rw [if_pos (show v > start ∧ v > s.curr_range from ⟨hvs, hvc⟩)]
        have hloop : error_checking_loop start s (v :: vs) =
            error_checking_loop start { s with curr_range := v } vs := by
          simp only [error_checking_loop]
          rw [hstep]
        have hrule : code_two_run_rule start pmax sec (v :: vs) =
            code_two_run_rule start v sec vs := by
          simp only [code_two_run_rule]
          rw [if_pos (show v > start from hvs),
            if_pos (show v > pmax by omega)]
        rw [hloop, hrule]
        refine ih { s with curr_range := v } v sec ⟨rfl, ?_⟩
        rcases hsec with ⟨h1, h2⟩ | ⟨m, h1, h2, h3, h4⟩
        · exact Or.inl ⟨h1, h2⟩
        · exact Or.inr ⟨m, h1, h2, h3, h4⟩

theorem error_checking_loop_cases (start : Nat) (vs : List Nat) (s : ECState)
    (pmax : Nat) (sec : Option Nat) (h : ECRel s pmax sec) :
    (code_two_run_rule start pmax sec vs = true ∧
      ∃ s', error_checking_loop start s vs = .ok s') ∨
    (code_two_run_rule start pmax sec vs = false ∧
      error_checking_loop start s vs = .error .OutOfOrder) := by
  have hrule := error_checking_loop_rule start vs s pmax sec h
  cases hl : error_checking_loop start s vs with
  | ok s' =>
    left
    rw [hl] at hrule
    exact ⟨hrule.symm, s', rfl⟩
  | error e =>
    right
    rw [hl] at hrule
    have he := error_checking_loop_error start vs s e hl
    subst he
    exact ⟨hrule.symm, rfl⟩

theorem error_checking_cons_eq (start : Nat) (rest : List Nat) (lt n : Nat) :
    error_checking (start :: rest) (some lt) n =
      if code_two_run_rule start start none rest = true then
        (if n = 0 then .panic
         else if 1440 % n ≠ 0 then .err (.CountCompatError n)
         else .ok lt)
      else .err (.ConfigFileError .OutOfOrder) := by
  have hstep0 : error_checking_step start
      { curr_range := start, start_range_other := start,
        curr_range_other := start, other_inited := false } start = .ok
      { curr_range := start, start_range_other := start,
        curr_range_other := start, other_inited := false } := by
    unfold error_checking_step
    rw [if_neg (show ¬ (start > start ∧ start > ECState.curr_range
        { curr_range := start, start_range_other := start,
          curr_range_other := start, other_inited := false }) by
        simp),
      if_neg (show ¬ (start > start ∧ start < ECState.curr_range
        { curr_range := start, start_range_other := start,
          curr_range_other := start, other_inited := false }) by
        simp),
      if_neg (show ¬ start < start by omega)]
  have hloop : error_checking_loop start
      { curr_range := start, start_range_other := start,
        curr_range_other := start, other_inited := false }
      (start :: rest) = error_checking_loop start
      { curr_range := start, start_range_other := start,
        curr_range_other := start, other_inited := false } rest := by
    simp only [error_checking_loop]
    rw [hstep0]
  have hrel : ECRel
      { curr_range := start, start_range_other := start,
        curr_range_other := start, other_inited := false } start none :=
    ⟨rfl, Or.inl ⟨rfl, rfl⟩⟩
  rcases error_checking_loop_cases start rest _ start none hrel with
    ⟨htrue, s', hs'⟩ | ⟨hfalse, herr⟩
  · rw [if_pos htrue]
    simp only [error_checking, List.head?, hloop, hs']
  · rw [if_neg (by simp [hfalse])]
    simp only [error_checking, List.head?, hloop, herr]

/-- Claim C1 (counterexample): the claim's two-run rule (`spec_two_run_rule`)
rejects the breakpoint sequence `[10, 20, 10]` (minute values): the
third value 10 is `≥ start = 10` but `<` the primary maximum 20, so the
claim predicts an `OutOfOrder` failure; `error_checking` accepts the
sequence, because a value equal to `start` falls through every branch of the
loop as a no-op. -/
theorem claim_C1_counterexample :
    spec_two_run_rule 10 10 none [20, 10] = false ∧
    error_checking [10, 20, 10] (some 10) 3 = .ok 10 := by decide

/-- Claim C1 (amended): for a non-empty sequence `start :: rest` (and a
count passing the divisibility check), `error_checking` succeeds exactly on
the sequences accepted by the rule it actually implements
(`code_two_run_rule`): a value strictly above `start` extends the primary
run when `≥` its maximum and fails `OutOfOrder` when below it; a value equal
to `start` is always accepted unchanged; the first value below `start`
opens the secondary run and raises the primary maximum to `END_OF_DAY`;
later values below `start` must be strictly above the secondary maximum,
else `OutOfOrder`. -/
theorem claim_C1_validation_rule (start : Nat) (rest : List Nat) (lt n : Nat)
    (h1 : 1440 % n = 0) (h2 : n ≠ 0) :
    error_checking (start :: rest) (some lt) n =
      if code_two_run_rule start start none rest = true then .ok lt
      else .err (.ConfigFileError .OutOfOrder) := by
  rw [error_checking_cons_eq]
  by_cases h : code_two_run_rule start start none rest = true
  · rw [if_pos h, if_pos h, if_neg h2, if_neg (by simp [h1])]
  · rw [if_neg h, if_neg h]

/-- Claim C1 (witness): instantiating the amended theorem at the concrete
sequence `[10, 5, 3]` (secondary run 5 then 3, not ascending) yields the
`OutOfOrder` failure. -/
theorem claim_C1_witness :
    error_checking [10, 5, 3] (some 10) 3 =
      .err (.ConfigFileError .OutOfOrder) := by
  rw [claim_C1_validation_rule 10 [5, 3] 10 3 (by decide) (by decide)]
  decide

/-- Claim C5 (counterexample): a user-supplied breakpoint list (passed as
`times_arg = some …` through `wallpaper_listener`) whose length 7 does not
divide 1440 IS rejected with `CountCompatError 7`, because `error_checking`
re-checks `1440 % dir_count` on every run. -/
theorem claim_C5_counterexample :
    wallpaper_current_time 50 "d"
      [.ok (some "r"), .ok (some "a"), .ok (some "b"), .ok (some "c"),
       .ok (some "d"), .ok (some "e"), .ok (some "f"), .ok (some "g")] 7 none
      (wallpaper_listener_times 7
        (some [0, 100, 200, 300, 400, 500, 600])) =
      .err (.CountCompatError 7) := by decide

/-- Claim C5 (amended): the divisibility check is applied on every run,
whether or not the breakpoints were user-supplied: for any non-empty
breakpoint sequence, `error_checking` fails with `CountCompatError n` if and
only if the ordering phase accepts the sequence, `n ≠ 0`, and
`1440 % n ≠ 0`; for image count 0 with an accepted ordering the run panics
on the remainder-by-zero in `1440 % dir_count` (the `dir_count == 0` arm of
the source's `||` is unreachable), so `CountCompatError 0` is never
returned. -/
theorem claim_C5_count_compat (start : Nat) (rest : List Nat) (lt n : Nat) :
    (error_checking (start :: rest) (some lt) n =
        .err (.CountCompatError n) ↔
      (code_two_run_rule start start none rest = true ∧ n ≠ 0 ∧
        1440 % n ≠ 0)) ∧
    (n = 0 → code_two_run_rule start start none rest = true →
      error_checking (start :: rest) (some lt) n = .panic) := by
  constructor
  · rw [error_checking_cons_eq]
    by_cases h : code_two_run_rule start start none rest = true
    · by_cases h0 : n = 0
      · rw [if_pos h, if_pos h0]
        simp [h, h0]
      · by_cases hc : 1440 % n ≠ 0
        · rw [if_pos h, if_neg h0, if_pos hc]
          simp [h, h0, hc]
        · rw [if_pos h, if_neg h0, if_neg hc]
          simp [h, h0, hc]
    · rw [if_neg h]
      simp [h]
  · intro h0 h
    rw [error_checking_cons_eq, if_pos h, if_pos h0]

/-- Claim C5 (witness): instantiating the amended theorem: a 7-entry
user-style list is rejected with `CountCompatError 7`, and the same list
with image count 0 panics instead of returning `CountCompatError 0`. -/
theorem claim_C5_witness :
    error_checking [0, 100] (some 0) 7 = .err (.CountCompatError 7) ∧
    error_checking [0, 100] (some 0) 0 = .panic :=
  ⟨(claim_C5_count_compat 0 [100] 0 7).1.mpr
     ⟨by decide, by decide, by decide⟩,
   (claim_C5_count_compat 0 [100] 0 0).2 rfl (by decide)⟩

theorem listener_times_loop_length (s : Nat) :
    ∀ (k t : Nat), (listener_times_loop k t s).length = k := by
  intro k
  induction k with
  | zero => intro t; rfl
  | succ k ih =>
    intro t
    simp only [listener_times_loop, List.length_cons, ih]

theorem listener_times_loop_chain (s : Nat) :
    ∀ (k t : Nat),
      List.Chain' (fun a b => b = a + s) (listener_times_loop k t s) := by
  intro k
  induction k with
  | zero => intro t; simp [listener_times_loop]
  | succ k ih =>
    intro t
    cases k with
    | zero => simp [listener_times_loop]
    | succ k2 =>
      have h := ih (t + s)
      rw [show listener_times_loop (k2 + 1) (t + s) s =
          (t + s) :: listener_times_loop k2 (t + s + s) s from rfl] at h
      rw [show listener_times_loop (k2 + 1 + 1) t s =
          t :: (t + s) :: listener_times_loop k2 (t + s + s) s from rfl]
      exact List.chain'_cons.mpr ⟨rfl, h⟩

/-- Claim C4: with no user-supplied times, `wallpaper_listener` generates,
for every image count `n > 0` with `1440 % n = 0`, exactly `n` breakpoints,
starting at `MIDNIGHT` and strictly ascending with every consecutive
difference exactly `1440 / n` minutes (the `f32` step of `listener_setup`
is exact on every divisor of 1440). -/
theorem claim_C4_generated_breakpoints (n : Nat) (h0 : 0 < n)
    (hd : 1440 % n = 0) :
    (wallpaper_listener_times n none).length = n ∧
    (wallpaper_listener_times n none).head? = some midnight ∧
    List.Chain' (fun a b => a < b ∧ b = a + 1440 / n)
      (wallpaper_listener_times n none) := by
  have hstep : step_time n = 1440 / n := step_time_eq_div n h0 hd
  have hpos : 0 < 1440 / n :=
    Nat.div_pos (Nat.le_of_dvd (by norm_num) (Nat.dvd_of_mod_eq_zero hd)) h0
  refine ⟨listener_times_loop_length _ n midnight, ?_, ?_⟩
  · cases n with
    | zero => omega
    | succ k => rfl
  · have hch := listener_times_loop_chain (step_time n) n midnight
    refine hch.imp (fun a b hab => ⟨?_, ?_⟩) <;> omega

/-- Claim C4 (witness): four images give the four breakpoints
`[00:00, 06:00, 12:00, 18:00]` in minutes. -/
theorem claim_C4_witness :
    (wallpaper_listener_times 4 none).length = 4 ∧
    (wallpaper_listener_times 4 none).head? = some midnight ∧
    List.Chain' (fun a b => a < b ∧ b = a + 1440 / 4)
      (wallpaper_listener_times 4 none) :=
  claim_C4_generated_breakpoints 4 (by decide) (by decide)

theorem code_two_run_rule_ascending (start : Nat) :
    ∀ (vs : List Nat) (pmax : Nat) (sec : Option Nat), start ≤ pmax →
      List.Chain' (· < ·) (pmax :: vs) →
      code_two_run_rule start pmax sec vs = true := by
  intro vs
  induction vs with
  | nil => intro pmax sec _ _; rfl
  | cons v vs ih =>
    intro pmax sec hle hch
    rw [List.chain'_cons] at hch
    obtain ⟨hlt, hch'⟩ := hch
    simp only [code_two_run_rule]
    rw [if_pos (show v > start by omega), if_pos (show v > pmax from hlt)]
    exact ih v sec (by omega) hch'

/-- Claim C7: for every image count for which interval generation succeeds
(`n > 0` dividing 1440), the auto-generated breakpoint sequence passes
`error_checking` without error, returning its first breakpoint
`MIDNIGHT`. -/
theorem claim_C7_roundtrip (n : Nat) (h0 : 0 < n) (hd : 1440 % n = 0) :
    error_checking (wallpaper_listener_times n none)
      (wallpaper_listener_times n none).head? n = .ok midnight := by
  have hstep : step_time n = 1440 / n := step_time_eq_div n h0 hd
  have hpos : 0 < step_time n := by
    rw [hstep]
    exact Nat.div_pos (Nat.le_of_dvd (by norm_num)
      (Nat.dvd_of_mod_eq_zero hd)) h0
  cases n with
  | zero => omega
  | succ k =>
    rw [show wallpaper_listener_times (k + 1) none =
        midnight :: listener_times_loop k (midnight + step_time (k + 1))
          (step_time (k + 1)) from rfl]
    rw [show (midnight :: listener_times_loop k
        (midnight + step_time (k + 1)) (step_time (k + 1))).head? =
        some midnight from rfl]
    rw [error_checking_cons_eq]
    have hch : List.Chain' (· < ·)
        (midnight :: listener_times_loop k
          (midnight + step_time (k + 1)) (step_time (k + 1))) := by
      have h := listener_times_loop_chain (step_time (k + 1)) (k + 1) midnight
      rw [show listener_times_loop (k + 1) midnight (step_time (k + 1)) =
          midnight :: listener_times_loop k
            (midnight + step_time (k + 1)) (step_time (k + 1)) from rfl] at h
      exact h.imp (fun a b hab => by omega)
    rw [if_pos (code_two_run_rule_ascending midnight _ midnight none
      (le_refl midnight) hch)]
    rw [if_neg (show ¬ k + 1 = 0 by omega),
      if_neg (show ¬ 1440 % (k + 1) ≠ 0 by simp [hd])]

/-- Claim C7 (witness): the four generated breakpoints for four images pass
validation. -/
theorem claim_C7_witness :
    error_checking (wallpaper_listener_times 4 none)
      (wallpaper_listener_times 4 none).head? 4 = .ok midnight :=
  claim_C7_roundtrip 4 (by decide) (by decide)

theorem str_append_empty (s : String) : s ++ "" = s := by
  cases s with
  | mk d =>
    show String.mk (d ++ []) = String.mk d
    rw [List.append_nil]

theorem str_append_assoc (a b c : String) : a ++ b ++ c = a ++ (b ++ c) := by
  cases a with
  | mk da =>
    cases b with
    | mk db =>
      cases c with
      | mk dc =>
        show String.mk (da ++ db ++ dc) = String.mk (da ++ (db ++ dc))
        rw [List.append_assoc]

theorem headD_drop {α : Type} (d : α) :
    ∀ (n : Nat) (l : List α), (l.drop n).headD d = l.getD n d := by
  intro n
  induction n with
  | zero =>
    intro l
    cases l <;> rfl
  | succ n ih =>
    intro l
    cases l with
    | nil => rfl
    | cons a l => exact ih l

theorem prog_handle_loader_ok (program : Option String)
    (hprog : prog_ok program) (fp : String) (ph : Command) :
    ∃ ph', prog_handle_loader fp program ph = .ok ph' := by
  cases program with
  | none => exact ⟨ph, rfl⟩
  | some p =>
    have heq : prog_handle_loader fp (some p) ph =
        (match split_whitespace p with
         | [] => .panic
         | w :: ws => .ok { program := w, args := ws ++ [fp] }) := rfl
    cases hsp : split_whitespace p with
    | nil => exact absurd hsp (hprog p rfl)
    | cons w ws =>
      refine ⟨⟨w, ws ++ [fp]⟩, ?_⟩
      rw [heq, hsp]

theorem wallpaper_loop_char (now : Nat) (program : Option String)
    (hprog : prog_ok program) :
    ∀ (fs : List String) (times : List Nat) (k : Nat) (fps last : String)
      (ph : Command),
      (∀ i, i < fs.length → ¬ sentinel_pair times (k + i)) →
      ∃ ph', wallpaper_loop now program (times.drop (k + 2)) (wseq times k)
          (wseq times (k + 1)) (good_entries fs) fps last ph =
        .ok (fps ++ match_concat_from now times k fs, fs.getLastD last, ph') := by
  intro fs
  induction fs with
  | nil =>
    intro times k fps last ph _
    refine ⟨ph, ?_⟩
    show RunOutcome.ok (fps, last, ph) =
      RunOutcome.ok (fps ++ match_concat_from now times k [], [].getLastD last, ph)
    rw [match_concat_from, str_append_empty]
    rfl
  | cons f fs ih =>
    intro times k fps last ph hsent
    have hs0 : ¬ sentinel_pair times k := by
      have h := hsent 0 (by simp)
      rwa [Nat.add_zero] at h
    have hsent' : ∀ i, i < fs.length → ¬ sentinel_pair times (k + 1 + i) := by
      intro i hi
      have h := hsent (i + 1) (by simp; omega)
      rwa [show k + (i + 1) = k + 1 + i by omega] at h
    have hcond : ¬ ((if wseq times k > wseq times (k + 1) then midnight
        else wseq times k) = full_time ∧ wseq times (k + 1) = full_time) := by
      intro hpair
      by_cases hr : wseq times k > wseq times (k + 1)
      · rw [if_pos hr] at hpair
        exact absurd hpair.1 (by decide)
      · rw [if_neg hr] at hpair
        exact hs0 hpair
    by_cases hm : window_matches now times k
    · obtain ⟨ph2, hph2⟩ := prog_handle_loader_ok program hprog (fps ++ f) ph
      obtain ⟨ph', hrec⟩ := ih times (k + 1) (fps ++ f) f ph2 hsent'
      refine ⟨ph', ?_⟩
      simp only [good_entries, List.map_cons, match_concat_from]
      simp only [wallpaper_loop]
      rw [if_neg hcond, if_pos (show now ≥ (if wseq times k > wseq times (k + 1)
          then midnight else wseq times k) ∧ now < wseq times (k + 1) from
          ⟨hm.1, hm.2⟩),
        hph2, if_pos hm, List.tail_drop, headD_drop, ← str_append_assoc,
        List.getLastD_cons]
      exact hrec
    · obtain ⟨ph', hrec⟩ := ih times (k + 1) fps f ph hsent'
      refine ⟨ph', ?_⟩
      simp only [good_entries, List.map_cons, match_concat_from]
      simp only [wallpaper_loop]
      rw [if_neg hcond, if_neg (show ¬ (now ≥ (if wseq times k >
          wseq times (k + 1) then midnight else wseq times k) ∧
          now < wseq times (k + 1)) from fun hc => hm ⟨hc.1, hc.2⟩),
        if_neg hm, List.tail_drop, headD_drop, List.getLastD_cons]
      exact hrec

theorem wallpaper_current_time_eq_loop (now : Nat) (dir : String)
    (r : Option String) (files : List DirEntry) (n : Nat)
    (program : Option String) (t : Nat) (rest : List Nat)
    (hec : error_checking (t :: rest) (some t) n = .ok t) :
    wallpaper_current_time now dir (Except.ok r :: files) n program
      (t :: rest) =
      finish_selection program
        (wallpaper_loop now program ((t :: rest).drop 2) t
          ((t :: rest).getD 1 full_time) files "" "" ⟨"", []⟩) := by
  simp only [wallpaper_current_time, List.head?_cons]
  rw [hec]
  show (match wallpaper_loop now program (List.drop 2 (t :: rest)) t
      ((t :: rest).getD 1 full_time) files "" ""
      { program := "", args := [] } with
    | RunOutcome.panic => RunOutcome.panic
    | RunOutcome.err e => RunOutcome.err e
    | RunOutcome.ok (filepath_set, last_image, prog_handle) =>
      if filepath_set = "" then
        match prog_handle_loader last_image program prog_handle with
        | RunOutcome.panic => RunOutcome.panic
        | RunOutcome.err e => RunOutcome.err e
        | RunOutcome.ok _ => RunOutcome.ok last_image
      else RunOutcome.ok filepath_set) =
    finish_selection program
      (wallpaper_loop now program ((t :: rest).drop 2) t
        ((t :: rest).getD 1 full_time) files "" "" ⟨"", []⟩)
  cases hl : wallpaper_loop now program (List.drop 2 (t :: rest)) t
      ((t :: rest).getD 1 full_time) files "" ""
      { program := "", args := [] } with
  | panic => rfl
  | err e => rfl
  | ok v =>
    obtain ⟨fps, last, ph⟩ := v
    rfl

theorem wallpaper_current_time_char (now : Nat) (dir : String)
    (r : Option String) (fs : List String) (n : Nat)
    (program : Option String) (hprog : prog_ok program)
    (t : Nat) (rest : List Nat)
    (hec : error_checking (t :: rest) (some t) n = .ok t)
    (hsent : ∀ i, i < fs.length → ¬ sentinel_pair (t :: rest) i) :
    wallpaper_current_time now dir (Except.ok r :: good_entries fs) n program
      (t :: rest) =
      .ok (if match_concat_from now (t :: rest) 0 fs = ""
           then fs.getLastD "" else match_concat_from now (t :: rest) 0 fs) := by
  rw [wallpaper_current_time_eq_loop now dir r (good_entries fs) n program
    t rest hec]
  have hsent0 : ∀ i, i < fs.length → ¬ sentinel_pair (t :: rest) (0 + i) := by
    intro i hi
    rw [Nat.zero_add]
    exact hsent i hi
  obtain ⟨ph', hloop⟩ := wallpaper_loop_char now program hprog fs (t :: rest)
    0 "" "" ⟨"", []⟩ hsent0
  rw [show wallpaper_loop now program ((t :: rest).drop 2) t
      ((t :: rest).getD 1 full_time) (good_entries fs) "" "" ⟨"", []⟩ =
      .ok ("" ++ match_concat_from now (t :: rest) 0 fs, fs.getLastD "", ph')
      from hloop]
  rw [show ("" : String) ++ match_concat_from now (t :: rest) 0 fs =
      match_concat_from now (t :: rest) 0 fs from rfl]
  simp only [finish_selection]
  by_cases hmc : match_concat_from now (t :: rest) 0 fs = ""
  · rw [if_pos hmc, if_pos hmc]
    obtain ⟨ph2, hph2⟩ := prog_handle_loader_ok program hprog
      (fs.getLastD "") ph'
    rw [hph2]
  · rw [if_neg hmc, if_neg hmc]

theorem match_concat_from_nomatch (now : Nat) (times : List Nat) :
    ∀ (fs : List String) (k : Nat),
      (∀ i, i < fs.length → ¬ window_matches now times (k + i)) →
      match_concat_from now times k fs = "" := by
  intro fs
  induction fs with
  | nil => intro k _; rfl
  | cons f fs ih =>
    intro k h
    have h0 : ¬ window_matches now times k := by
      have hh := h 0 (by simp)
      rwa [Nat.add_zero] at hh
    rw [match_concat_from, if_neg h0]
    rw [ih (k + 1) (fun i hi => by
      have hh := h (i + 1) (by simp; omega)
      rwa [show k + (i + 1) = k + 1 + i by omega] at hh)]
    rfl

theorem match_concat_from_unique (now : Nat) (times : List Nat) :
    ∀ (fs : List String) (k j : Nat), j < fs.length →
      window_matches now times (k + j) →
      (∀ i, i < fs.length → window_matches now times (k + i) → i = j) →
      match_concat_from now times k fs = fs.getD j "" := by
  intro fs
  induction fs with
  | nil => intro k j hj _ _; simp at hj
  | cons f fs ih =>
    intro k j hj hm huniq
    cases j with
    | zero =>
      rw [Nat.add_zero] at hm
      rw [match_concat_from, if_pos hm]
      have hno : ∀ i, i < fs.length →
          ¬ window_matches now times (k + 1 + i) := by
        intro i hi hw
        have hcontra := huniq (i + 1) (by simp; omega)
          (by rwa [show k + (i + 1) = k + 1 + i by omega])
        omega
      rw [match_concat_from_nomatch now times fs (k + 1) hno,
        str_append_empty]
      rfl
    | succ j' =>
      have hm' : window_matches now times (k + 1 + j') := by
        rwa [show k + (j' + 1) = k + 1 + j' by omega] at hm
      have h0 : ¬ window_matches now times k := by
        intro hw
        have hcontra := huniq 0 (by simp) (by rwa [Nat.add_zero])
        omega
      rw [match_concat_from, if_neg h0]
      rw [ih (k + 1) j' (by simp at hj; omega) hm' (fun i hi hw => by
        have hh := huniq (i + 1) (by simp; omega)
          (by rwa [show k + (i + 1) = k + 1 + i by omega])
        omega)]
      rfl

/-- Claim C2 (counterexample): `[480, 1200, 1440]` passes validation and
`now = 500` lies in exactly one scan window (the first, `[480, 1200)`), yet
selection fails with `FileTimeMismatch` (the last window's bounds are both
the sentinel) instead of returning the paired image `"a"`. -/
theorem claim_C2_counterexample :
    error_checking [480, 1200, 1440] (some 480) 3 = .ok 480 ∧
    window_matches 500 [480, 1200, 1440] 0 ∧
    (∀ i, i < 3 → window_matches 500 [480, 1200, 1440] i → i = 0) ∧
    wallpaper_current_time 500 "d"
      [.ok (some "r"), .ok (some "a"), .ok (some "b"), .ok (some "c")] 3
      none [480, 1200, 1440] =
      .err (.ConfigFileError .FileTimeMismatch) := by decide

/-- Claim C2 (amended): for same-length breakpoint and image sequences
(length ≥ 1) that pass validation, **provided no scan window has both
bounds equal to the `END_OF_DAY` sentinel** (otherwise the scan fails with
`FileTimeMismatch` first), with accessible, renderable, non-empty image
paths and a well-formed user-program option, if `now` lies in exactly one
scan window then selection returns the image paired with that window. -/
theorem claim_C2_unique_window (now : Nat) (dir : String) (r : Option String)
    (fs : List String) (n : Nat) (program : Option String)
    (hprog : prog_ok program) (t : Nat) (rest : List Nat)
    (hlen : fs.length = (t :: rest).length)
    (hec : error_checking (t :: rest) (some t) n = .ok t)
    (hsent : ∀ i, i < fs.length → ¬ sentinel_pair (t :: rest) i)
    (j : Nat) (hj : j < fs.length)
    (hm : window_matches now (t :: rest) j)
    (huniq : ∀ i, i < fs.length → window_matches now (t :: rest) i → i = j)
    (hne : fs.getD j "" ≠ "") :
    wallpaper_current_time now dir (Except.ok r :: good_entries fs) n program
      (t :: rest) = .ok (fs.getD j "") := by
  rw [wallpaper_current_time_char now dir r fs n program hprog t rest hec
    hsent]
  have hmc : match_concat_from now (t :: rest) 0 fs = fs.getD j "" :=
    match_concat_from_unique now (t :: rest) fs 0 j hj
      (by rwa [Nat.zero_add])
      (fun i hi hw => huniq i hi (by rwa [Nat.zero_add] at hw))
  rw [hmc, if_neg hne]

/-- Claim C2 (witness): with breakpoints `[08:00, 20:00]` and images
`[a, b]`, `now = 10:00` (600 minutes) selects `a`. -/
theorem claim_C2_witness :
    wallpaper_current_time 600 "d"
      (Except.ok (some "r") :: good_entries ["a", "b"]) 2 none [480, 1200] =
      .ok "a" := by
  rw [claim_C2_unique_window 600 "d" (some "r") ["a", "b"] 2 none
    (by simp [prog_ok]) 480 [1200] (by decide) (by decide) (by decide)
    0 (by decide) (by decide) (by decide) (by decide)]
  rfl

/-- Claim C3 (counterexample): `[480, 1200, 1440]` passes validation and
`now = 100` lies in no scan window, yet selection fails with
`FileTimeMismatch` instead of returning the last image `"c"`. -/
theorem claim_C3_counterexample :
    error_checking [480, 1200, 1440] (some 480) 3 = .ok 480 ∧
    (∀ i, i < 3 → ¬ window_matches 100 [480, 1200, 1440] i) ∧
    wallpaper_current_time 100 "d"
      [.ok (some "r"), .ok (some "a"), .ok (some "b"), .ok (some "c")] 3
      none [480, 1200, 1440] =
      .err (.ConfigFileError .FileTimeMismatch) := by decide

/-- Claim C3 (amended): for same-length breakpoint and image sequences
(length ≥ 1) that pass validation, **provided no scan window has both
bounds equal to the `END_OF_DAY` sentinel**, with accessible renderable
image paths and a well-formed user-program option, if `now` lies in no scan
window then selection returns the last image of the sequence. -/
theorem claim_C3_fallback (now : Nat) (dir : String) (r : Option String)
    (fs : List String) (n : Nat) (program : Option String)
    (hprog : prog_ok program) (t : Nat) (rest : List Nat)
    (hlen : fs.length = (t :: rest).length)
    (hec : error_checking (t :: rest) (some t) n = .ok t)
    (hsent : ∀ i, i < fs.length → ¬ sentinel_pair (t :: rest) i)
    (hnone : ∀ i, i < fs.length → ¬ window_matches now (t :: rest) i) :
    wallpaper_current_time now dir (Except.ok r :: good_entries fs) n program
      (t :: rest) = .ok (fs.getLastD "") := by
  rw [wallpaper_current_time_char now dir r fs n program hprog t rest hec
    hsent]
  rw [match_concat_from_nomatch now (t :: rest) fs 0 (fun i hi => by
    rw [Nat.zero_add]
    exact hnone i hi)]
  rw [if_pos rfl]

/-- Claim C3 (witness): with breakpoints `[08:00, 20:00]` and images
`[a, b]`, `now = 02:00` (120 minutes) lies in no window, and the fallback
selects the last image `b`. -/
theorem claim_C3_witness :
    wallpaper_current_time 120 "d"
      (Except.ok (some "r") :: good_entries ["a", "b"]) 2 none [480, 1200] =
      .ok "b" := by
  rw [claim_C3_fallback 120 "d" (some "r") ["a", "b"] 2 none
    (by simp [prog_ok]) 480 [1200] (by decide) (by decide) (by decide)
    (by decide)]
  rfl

theorem scan_trigger_iff (times : List Nat) (k : Nat) :
    ((if wseq times k > wseq times (k + 1) then midnight
      else wseq times k) = full_time ∧ wseq times (k + 1) = full_time) ↔
    sentinel_pair times k := by
  constructor
  · intro hpair
    by_cases hr : wseq times k > wseq times (k + 1)
    · rw [if_pos hr] at hpair
      exact absurd hpair.1 (by decide)
    · rw [if_neg hr] at hpair
      exact ⟨hpair.1, hpair.2⟩
  · intro hsp
    refine ⟨?_, hsp.2⟩
    rw [if_neg (show ¬ wseq times k > wseq times (k + 1) by
      rw [hsp.1, hsp.2]
      omega)]
    exact hsp.1

theorem wallpaper_loop_ftm (now : Nat) (program : Option String)
    (hprog : prog_ok program) :
    ∀ (fs : List String) (times : List Nat) (k : Nat) (fps last : String)
      (ph : Command) (i : Nat), i < fs.length →
      sentinel_pair times (k + i) →
      (∀ i', i' < i → ¬ sentinel_pair times (k + i')) →
      wallpaper_loop now program (times.drop (k + 2)) (wseq times k)
        (wseq times (k + 1)) (good_entries fs) fps last ph =
      .err (.ConfigFileError .FileTimeMismatch) := by
  intro fs
  induction fs with
  | nil =>
    intro times k fps last ph i hi _ _
    simp at hi
  | cons f fs ih =>
    intro times k fps last ph i hi hsp hmin
    cases i with
    | zero =>
      rw [Nat.add_zero] at hsp
      simp only [good_entries, List.map_cons]
      simp only [wallpaper_loop]
      rw [if_pos ((scan_trigger_iff times k).mpr hsp)]
    | succ i' =>
      have hs0 : ¬ sentinel_pair times k := by
        have h := hmin 0 (by omega)
        rwa [Nat.add_zero] at h
      have hsp' : sentinel_pair times (k + 1 + i') := by
        rwa [show k + (i' + 1) = k + 1 + i' by omega] at hsp
      have hmin' : ∀ i'', i'' < i' → ¬ sentinel_pair times (k + 1 + i'') := by
        intro i'' hii
        have h := hmin (i'' + 1) (by omega)
        rwa [show k + (i'' + 1) = k + 1 + i'' by omega] at h
      have hi' : i' < fs.length := by simp at hi; omega
      by_cases hm : window_matches now times k
      · obtain ⟨ph2, hph2⟩ := prog_handle_loader_ok program hprog (fps ++ f) ph
        simp only [good_entries, List.map_cons]
        simp only [wallpaper_loop]
        rw [if_neg (fun hc => hs0 ((scan_trigger_iff times k).mp hc)),
          if_pos (show now ≥ (if wseq times k > wseq times (k + 1)
            then midnight else wseq times k) ∧ now < wseq times (k + 1) from
            ⟨hm.1, hm.2⟩),
          hph2, List.tail_drop, headD_drop]
        exact ih times (k + 1) (fps ++ f) f ph2 i' hi' hsp' hmin'
      · simp only [good_entries, List.map_cons]
        simp only [wallpaper_loop]
        rw [if_neg (fun hc => hs0 ((scan_trigger_iff times k).mp hc)),
          if_neg (show ¬ (now ≥ (if wseq times k > wseq times (k + 1)
            then midnight else wseq times k) ∧ now < wseq times (k + 1)) from
            fun hc => hm ⟨hc.1, hc.2⟩),
          List.tail_drop, headD_drop]
        exact ih times (k + 1) fps f ph i' hi' hsp' hmin'

/-- Claim C6 (counterexample): in `[600, 1440, 300, 1440, 310]` both the
pre-wrap (primary) part and the post-wrap (secondary) part of the sequence
contain the `END_OF_DAY` sentinel 1440, the sequence passes validation, and
yet selection completes without `FileTimeMismatch` (returning the
concatenation of the two windows containing `now = 100`), because no two
sentinels are ever adjacent in the scan. -/
theorem claim_C6_counterexample :
    (1440 ∈ [600, 1440, 300, 1440, 310].take 2 ∧
     1440 ∈ [600, 1440, 300, 1440, 310].drop 2) ∧
    error_checking [600, 1440, 300, 1440, 310] (some 600) 5 = .ok 600 ∧
    wallpaper_current_time 100 "d"
      (Except.ok (some "r") :: good_entries ["a", "b", "c", "d", "e"]) 5
      none [600, 1440, 300, 1440, 310] = .ok "bd" := by decide

/-- Claim C6 (amended): for a validated schedule with accessible renderable
files and a well-formed user-program option, selection fails with
`FileTimeMismatch` **iff some scan window has both bounds equal to the
`END_OF_DAY` sentinel 1440** (in particular when the final breakpoint is
1440, as in the spec's example `[10:00, 22:00, 1440, 6:00, 1440]`); two
sentinels merely present in both runs do not trigger the failure unless
such a window exists. -/
theorem claim_C6_sentinel_windows (now : Nat) (dir : String)
    (r : Option String) (fs : List String) (n : Nat)
    (program : Option String) (hprog : prog_ok program)
    (t : Nat) (rest : List Nat)
    (hlen : fs.length = (t :: rest).length)
    (hec : error_checking (t :: rest) (some t) n = .ok t) :
    wallpaper_current_time now dir (Except.ok r :: good_entries fs) n program
      (t :: rest) = .err (.ConfigFileError .FileTimeMismatch) ↔
    ∃ i, i < fs.length ∧ sentinel_pair (t :: rest) i := by
  constructor
  · intro h
    by_contra hno
    push_neg at hno
    rw [wallpaper_current_time_char now dir r fs n program hprog t rest hec
      hno] at h
    simp at h
  · rintro ⟨i, hi, hsp⟩
    have hex : ∃ j, sentinel_pair (t :: rest) j := ⟨i, hsp⟩
    have hj : sentinel_pair (t :: rest) (Nat.find hex) := Nat.find_spec hex
    have hmin : ∀ i', i' < Nat.find hex →
        ¬ sentinel_pair (t :: rest) i' := fun i' hi' => Nat.find_min hex hi'
    have hjlt : Nat.find hex < fs.length :=
      lt_of_le_of_lt (Nat.find_min' hex hsp) hi
    rw [wallpaper_current_time_eq_loop now dir r (good_entries fs) n program
      t rest hec]
    rw [show wallpaper_loop now program ((t :: rest).drop 2) t
        ((t :: rest).getD 1 full_time) (good_entries fs) "" "" ⟨"", []⟩ =
        .err (.ConfigFileError .FileTimeMismatch) from
      wallpaper_loop_ftm now program hprog fs (t :: rest) 0 "" "" ⟨"", []⟩
        (Nat.find hex) hjlt (by rwa [Nat.zero_add])
        (fun i' hi' => by
          rw [Nat.zero_add]
          exact hmin i' hi')]
    rfl

/-- Claim C6 (witness): the spec's own example `[10:00, 22:00, 1440, 6:00,
1440]` (in minutes `[600, 1320, 1440, 360, 1440]`) fails with
`FileTimeMismatch`: its final breakpoint is the sentinel, so the last scan
window has two sentinel bounds. -/
theorem claim_C6_witness :
    wallpaper_current_time 450 "d"
      (Except.ok (some "r") :: good_entries ["a", "b", "c", "d", "e"]) 5
      none [600, 1320, 1440, 360, 1440] =
      .err (.ConfigFileError .FileTimeMismatch) := by
  rw [claim_C6_sentinel_windows 450 "d" (some "r") ["a", "b", "c", "d", "e"]
    5 none (by simp [prog_ok]) 600 [1320, 1440, 360, 1440] (by decide)
    (by decide)]
  exact ⟨4, by decide, by decide⟩

/-- Claim C8 (counterexample): with breakpoints `[600, 1440, 300]` the scan
windows 0 (`[600, 1440)`) and 2 (`[300, 1440)`) both contain `now = 700`;
the recorded result is the `push_str` concatenation `"ac"` of both matching
images, not the image `"c"` of the last matching window alone. -/
theorem claim_C8_counterexample :
    window_matches 700 [600, 1440, 300] 0 ∧
    window_matches 700 [600, 1440, 300] 2 ∧
    wallpaper_current_time 700 "d"
      (Except.ok (some "r") :: good_entries ["a", "b", "c"]) 3 none
      [600, 1440, 300] = .ok ("a" ++ "c") ∧
    ("a" ++ "c" : String) ≠ "c" := by decide

/-- Claim C8 (amended): when the scan finds one or more windows containing
`now`, the recorded result is the concatenation (`match_concat_from`) of the
images of **all** matching windows in scan order — the last match's image is
the final component of that concatenation, not the whole result; only when
the concatenation is empty does the last-image fallback apply. -/
theorem claim_C8_concatenation (now : Nat) (dir : String)
    (r : Option String) (fs : List String) (n : Nat)
    (program : Option String) (hprog : prog_ok program)
    (t : Nat) (rest : List Nat)
    (hlen : fs.length = (t :: rest).length)
    (hec : error_checking (t :: rest) (some t) n = .ok t)
    (hsent : ∀ i, i < fs.length → ¬ sentinel_pair (t :: rest) i) :
    wallpaper_current_time now dir (Except.ok r :: good_entries fs) n program
      (t :: rest) =
      .ok (if match_concat_from now (t :: rest) 0 fs = ""
           then fs.getLastD "" else match_concat_from now (t :: rest) 0 fs) :=
  wallpaper_current_time_char now dir r fs n program hprog t rest hec hsent

/-- Claim C8 (witness): instantiating the amended theorem at the
double-match input `[600, 1440, 300]`, `now = 700` yields the concatenation
`"ac"` of both matching images. -/
theorem claim_C8_witness :
    wallpaper_current_time 700 "w"
      (Except.ok (some "r") :: good_entries ["a", "b", "c"]) 3 none
      [600, 1440, 300] = .ok "ac" := by
  rw [claim_C8_concatenation 700 "w" (some "r") ["a", "b", "c"] 3 none
    (by simp [prog_ok]) 600 [1440, 300] (by decide) (by decide) (by decide)]
  decide

theorem wallpaper_loop_panic (now : Nat) (program : Option String)
    (hprog : prog_ok program) (tail_entries : List DirEntry) :
    ∀ (pre : List String) (times : List Nat) (k : Nat) (fps last : String)
      (ph : Command),
      (∀ i, i < pre.length + 1 → ¬ sentinel_pair times (k + i)) →
      wallpaper_loop now program (times.drop (k + 2)) (wseq times k)
        (wseq times (k + 1))
        (good_entries pre ++ Except.ok none :: tail_entries) fps last ph =
      .panic := by
  intro pre
  induction pre with
  | nil =>
    intro times k fps last ph hsent
    have hs0 : ¬ sentinel_pair times k := by
      have h := hsent 0 (by omega)
      rwa [Nat.add_zero] at h
    show wallpaper_loop now program (times.drop (k + 2)) (wseq times k)
      (wseq times (k + 1)) (Except.ok none :: tail_entries) fps last ph =
      .panic
    simp only [wallpaper_loop]
    rw [if_neg (fun hc => hs0 ((scan_trigger_iff times k).mp hc))]
  | cons f pre ih =>
    intro times k fps last ph hsent
    have hs0 : ¬ sentinel_pair times k := by
      have h := hsent 0 (by omega)
      rwa [Nat.add_zero] at h
    have hsent' : ∀ i, i < pre.length + 1 →
        ¬ sentinel_pair times (k + 1 + i) := by
      intro i hi
      have h := hsent (i + 1) (by simp; omega)
      rwa [show k + (i + 1) = k + 1 + i by omega] at h
    show wallpaper_loop now program (times.drop (k + 2)) (wseq times k)
      (wseq times (k + 1))
      (Except.ok (some f) :: (good_entries pre ++
        Except.ok none :: tail_entries)) fps last ph = .panic
    by_cases hm : window_matches now times k
    · obtain ⟨ph2, hph2⟩ := prog_handle_loader_ok program hprog (fps ++ f) ph
      simp only [wallpaper_loop]
      rw [if_neg (fun hc => hs0 ((scan_trigger_iff times k).mp hc)),
        if_pos (show now ≥ (if wseq times k > wseq times (k + 1)
          then midnight else wseq times k) ∧ now < wseq times (k + 1) from
          ⟨hm.1, hm.2⟩),
        hph2, List.tail_drop, headD_drop]
      exact ih times (k + 1) (fps ++ f) f ph2 hsent'
    · simp only [wallpaper_loop]
      rw [if_neg (fun hc => hs0 ((scan_trigger_iff times k).mp hc)),
        if_neg (show ¬ (now ≥ (if wseq times k > wseq times (k + 1)
          then midnight else wseq times k) ∧ now < wseq times (k + 1)) from
          fun hc => hm ⟨hc.1, hc.2⟩),
        List.tail_drop, headD_drop]
      exact ih times (k + 1) fps f ph hsent'

/-- Claim C9 (counterexample): an image whose path cannot be rendered as
text makes selection abort (the `to_str().unwrap()` of line 80) — it does
not return the typed error `FilePathError`. -/
theorem claim_C9_counterexample :
    wallpaper_current_time 600 "d"
      [.ok (some "r"), .ok (some "a"), .ok none] 2 none [480, 1200] =
      .panic ∧
    (RunOutcome.panic : RunOutcome String) ≠ .err .FilePathError := by decide

/-- Claim C9 (amended): whenever the scan reaches an image identifier that
cannot be rendered as text (after any prefix of renderable images, with no
sentinel-bounded window before it), the selection aborts (panics) via the
`to_str().unwrap()` of line 80 — the `FilePathError` return on the match
path is unreachable for such an entry. -/
theorem claim_C9_nonrenderable_panics (now : Nat) (dir : String)
    (r : Option String) (n : Nat) (program : Option String)
    (hprog : prog_ok program) (pre : List String)
    (tail_entries : List DirEntry) (t : Nat) (rest : List Nat)
    (hec : error_checking (t :: rest) (some t) n = .ok t)
    (hsent : ∀ i, i < pre.length + 1 → ¬ sentinel_pair (t :: rest) i) :
    wallpaper_current_time now dir
      (Except.ok r :: (good_entries pre ++ Except.ok none :: tail_entries))
      n program (t :: rest) = .panic := by
  rw [wallpaper_current_time_eq_loop now dir r
    (good_entries pre ++ Except.ok none :: tail_entries) n program t rest
    hec]
  rw [show wallpaper_loop now program ((t :: rest).drop 2) t
      ((t :: rest).getD 1 full_time)
      (good_entries pre ++ Except.ok none :: tail_entries) "" "" ⟨"", []⟩ =
      .panic from
    wallpaper_loop_panic now program hprog tail_entries pre (t :: rest) 0
      "" "" ⟨"", []⟩ (fun i hi => by
        rw [Nat.zero_add]
        exact hsent i hi)]
  rfl

/-- Claim C9 (witness): a renderable image followed by a non-renderable one
makes the scan panic at the second entry. -/
theorem claim_C9_witness :
    wallpaper_current_time 50 "w"
      (Except.ok (some "r") ::
        (good_entries ["x"] ++ Except.ok none :: ([] : List DirEntry))) 2
      none [300, 900] = .panic := by
  rw [claim_C9_nonrenderable_panics 50 "w" (some "r") 2 none
    (by simp [prog_ok]) ["x"] [] 300 [900] (by decide) (by decide)]

/-- Claim C10: `prog_handle_loader` aborts (unwrap of `None` on the first
split token) when the user program string is present but holds no
non-whitespace token, for every file path argument; when the string holds at
least one token it builds the command as first token executable, remaining
tokens as leading arguments, and the file path appended as the final
argument. -/
theorem claim_C10_prog_handle_loader (filepath : String) (prog : String)
    (ph : Command) :
    (split_whitespace prog = [] →
      prog_handle_loader filepath (some prog) ph = .panic) ∧
    (∀ w ws, split_whitespace prog = w :: ws →
      prog_handle_loader filepath (some prog) ph =
        .ok { program := w, args := ws ++ [filepath] }) := by
  constructor
  · intro h
    show (match split_whitespace prog with
          | [] => RunOutcome.panic
          | w :: ws => RunOutcome.ok (Command.mk w (ws ++ [filepath]))) =
      RunOutcome.panic
    rw [h]
  · intro w ws h
    show (match split_whitespace prog with
          | [] => RunOutcome.panic
          | w :: ws => RunOutcome.ok (Command.mk w (ws ++ [filepath]))) =
      RunOutcome.ok (Command.mk w (ws ++ [filepath]))
    rw [h]

/-- Claim C10 (witness): a whitespace-only program string panics; `"p -x"`
with file path `"f"` builds `p` with arguments `["-x", "f"]`. -/
theorem claim_C10_witness :
    prog_handle_loader "f" (some "  ") { program := "", args := [] } =
      .panic ∧
    prog_handle_loader "f" (some "p -x") { program := "", args := [] } =
      .ok { program := "p", args := ["-x", "f"] } :=
  ⟨(claim_C10_prog_handle_loader "f" "  " ⟨"", []⟩).1 (by decide),
   (claim_C10_prog_handle_loader "f" "p -x" ⟨"", []⟩).2 "p" ["-x"]
     (by decide)⟩
